import Mathlib

/-!
# Verification of the ssh-mcp remote-execution gateway

Shallow embedding of the core of the `ssh-mcp` repository:

* `src/ssh/connection-manager.ts` — retry classification of `connect()`
  (`isAuthFailure`, `isRetryableConnectionError`, `connectWithRetry`,
  `wrapConnectionError`, `formatTargetContext`), the `ready`-event handler of a
  single connection attempt (elevation is attempted and its failure swallowed),
  and the `close`-event handler of the default (one-shot exec channel) path of
  `execSshCommandWithConnection`.
* `src/profile/profile-manager.ts` — the `ProfileManager` store:
  `findProfiles` scoring/sorting, `createProfile`, `prepareDeleteProfile`,
  `confirmDeleteProfile`, `persistRawConfig` and `pickActiveProfileId`,
  together with the validation pipeline of `src/config/loader.ts` /
  `src/config/types.ts`.

Modelling conventions:
* JavaScript strings are Lean `String`s; `trim`, `toLowerCase` and
  `String.prototype.includes` are re-implemented over the character list so
  that all definitions evaluate inside the kernel.
* The filesystem is explicit: the persisted file is the `disk` component of
  the manager state, and existence of a key file is a predicate parameter
  `keyOk` (absorbing `resolveKeyPath` + `access` of the loader).
* Asynchronous settlement is shallowly embedded: an operation that can reject
  returns `Except`/`OpOutcome`; the outcome of the i-th connection attempt is
  a function `Nat → Option ErrInfo` (`none` = the `ready` event fired).
* `${VAR}` environment expansion is outside the model: all strings are taken
  as already expanded.
-/

namespace SshMcp

/-! ## String helpers (JS `toLowerCase` / `trim` / `includes`) -/

/-- JS `String.prototype.toLowerCase` (character-wise lowering). -/
def lowerStr (s : String) : String := ⟨s.data.map Char.toLower⟩

/-- Drop whitespace at both ends of a character list. -/
def trimChars (l : List Char) : List Char :=
  ((l.dropWhile Char.isWhitespace).reverse.dropWhile Char.isWhitespace).reverse

/-- JS `String.prototype.trim`. -/
def trimStr (s : String) : String := ⟨trimChars s.data⟩

/-- `pat` occurs at the head of the second list. -/
def leadsWith : List Char → List Char → Bool
  | [], _ => true
  | _ :: _, [] => false
  | a :: as, b :: bs => a == b && leadsWith as bs

/-- `pat` occurs somewhere inside the first list. -/
def charsContain : List Char → List Char → Bool
  | [], pat => pat.isEmpty
  | c :: t, pat => leadsWith pat (c :: t) || charsContain t pat

/-- JS `String.prototype.includes`. -/
def strContains (hay pat : String) : Bool := charsContain hay.data pat.data

/-- `hay` mentions `needle` verbatim (as a contiguous substring). -/
def strMentions (hay needle : String) : Prop :=
  ∃ s₁ s₂ : String, hay = s₁ ++ needle ++ s₂

theorem leadsWith_refl (l : List Char) : leadsWith l l = true := by
  induction l with
  | nil => rfl
  | cons a as ih => simp [leadsWith, ih]

theorem strContains_refl (s : String) : strContains s s = true := by
  unfold strContains
  cases h : s.data with
  | nil => rfl
  | cons c t => simp [charsContain, leadsWith_refl]

theorem strMentions_trans {hay n m : String} (h1 : strMentions hay n)
    (h2 : strMentions n m) : strMentions hay m := by
  obtain ⟨a, b, hab⟩ := h1
  obtain ⟨c, d, hcd⟩ := h2
  exact ⟨a ++ c, d ++ b, by rw [hab, hcd]; simp [String.append_assoc]⟩

/-! ## `execSshCommandWithConnection`, default (non-elevated) path:
the `close` handler of the one-shot exec channel.

```ts
stream.on('close', (code: number) => {
  if (isResolved) return;
  isResolved = true;
  clearTimeout(timeoutId);
  if (stderr) {
    reject(new McpError(ErrorCode.InternalError, `Error (code ${code}) (${target}):\n${stderr}`));
    return;
  }
  resolve({ content: [{ type: 'text', text: stdout }] });
});
```
`stdout` / `stderr` are the accumulated `data` payloads of the two streams;
`if (stderr)` is JS truthiness of a string, i.e. non-emptiness. -/

/-- `close`-event handler of the default execution path: non-empty stderr
rejects (whatever the exit code), otherwise the captured stdout resolves. -/
def execCloseResult (target : String) (code : Int) (stdout stderr : String) :
    Except String String :=
  if stderr ≠ "" then
    Except.error ("Error (code " ++ toString code ++ ") (" ++ target ++ "):\n" ++ stderr)
  else
    Except.ok stdout

/-! ## `connectOnce` ready handler (elevation attempt, swallowed failure)

```ts
client.on('ready', async () => {
  clearTimeout(timeoutId);
  if (this.sshConfig.suPassword && !process.env.SSH_MCP_TEST) {
    try { await this.ensureElevated(); } catch { /* swallowed */ }
  }
  resolve();
});
```
-/

/-- JS truthiness of an optional string (`undefined`/`''` are falsy). -/
def jsTruthy : Option String → Bool
  | none => false
  | some s => !(s == "")

/-- The `ready` handler of one connection attempt. Returns whether an
elevation attempt was made, and the settlement of the connect promise.
`sshMcpTest` models `process.env.SSH_MCP_TEST` being set (truthy);
`elevationOutcome` is the settlement of `ensureElevated()`. -/
def connectReadyHandler (suPassword : Option String) (sshMcpTest : Bool)
    (elevationOutcome : Except String Unit) : Bool × Except String Unit :=
  if jsTruthy suPassword && !sshMcpTest then
    match elevationOutcome with
    | Except.ok _ => (true, Except.ok ())
    | Except.error _ => (true, Except.ok ())  -- catch: elevation failure swallowed
  else
    (false, Except.ok ())

/-! ## `connect()` retry classification and schedule -/

/-- Target of a connection (`SSHConfig` restricted to diagnostic fields). -/
structure SSHTarget where
  profileId : Option String
  host : String
  port : Nat
deriving DecidableEq

/-- A connection-attempt error: its `message` and optional `code` property. -/
structure ErrInfo where
  message : String
  code : Option String
deriving DecidableEq

/-- `formatTargetContext`. -/
def formatTargetContext (t : SSHTarget) : String :=
  let pid := match t.profileId with
    | some s => if s = "" then "unknown" else s
    | none => "unknown"
  "profileId=" ++ pid ++ " host=" ++ t.host ++ " port=" ++ toString t.port

/-- `isAuthFailure`: authentication-failure signature of the error message. -/
def isAuthFailure (e : ErrInfo) : Bool :=
  let m := lowerStr e.message
  strContains m "authentication" ||
  strContains m "permission denied" ||
  strContains m "all configured authentication methods failed" ||
  strContains m "auth failed"

/-- The transport-level error codes of `isRetryableConnectionError`. -/
def retryableCodes : List String :=
  ["ECONNREFUSED", "ECONNRESET", "EHOSTUNREACH", "ENETUNREACH", "ETIMEDOUT"]

/-- `isRetryableConnectionError`. -/
def isRetryableConnectionError (e : ErrInfo) : Bool :=
  if isAuthFailure e then false
  else if (match e.code with
           | some c => !(c == "") && retryableCodes.contains c
           | none => false) then true
  else
    let m := lowerStr e.message
    strContains m "handshake" || strContains m "kex" ||
    strContains m "timeout" || strContains m "timed out" ||
    strContains m "connection closed" || strContains m "protocol"

/-- `DEFAULT_CONNECT_RETRY_DELAYS_MS = [200, 400]`. -/
def DEFAULT_CONNECT_RETRY_DELAYS_MS : List Nat := [200, 400]

/-- `wrapConnectionError`. -/
def wrapConnectionError (t : SSHTarget) (e : ErrInfo) : String :=
  "SSH connection error (" ++ formatTargetContext t ++ "): " ++ e.message

instance {ε α : Type _} [DecidableEq ε] [DecidableEq α] :
    DecidableEq (Except ε α) := fun a b =>
  match a, b with
  | Except.ok x, Except.ok y =>
    if h : x = y then isTrue (by rw [h]) else isFalse (by simp [h])
  | Except.ok _, Except.error _ => isFalse (by simp)
  | Except.error _, Except.ok _ => isFalse (by simp)
  | Except.error x, Except.error y =>
    if h : x = y then isTrue (by rw [h]) else isFalse (by simp [h])

/-- The `connectWithRetry` loop from attempt number `attempt` on, with
`remaining` retry delays left (the loop invariant is
`attempt + remaining = DEFAULT_CONNECT_RETRY_DELAYS_MS.length`, so
`remaining = 0` is the source's `attempt === DEFAULT_CONNECT_RETRY_DELAYS_MS.length`).
`outcome i` is the settlement of the i-th `connectOnce` (`none` = ready).
Returns the settlement of `connectWithRetry` and the number of attempts
performed. -/
def connectWithRetryGo (outcome : Nat → Option ErrInfo) (t : SSHTarget) :
    (attempt remaining : Nat) → Except String Unit × Nat
  | attempt, remaining =>
    match outcome attempt with
    | none => (Except.ok (), 1)
    | some e =>
      match remaining with
      | 0 => (Except.error (wrapConnectionError t e), 1)
      | r + 1 =>
        if isRetryableConnectionError e = false then
          (Except.error (wrapConnectionError t e), 1)
        else
          let res := connectWithRetryGo outcome t (attempt + 1) r
          (res.1, res.2 + 1)

/-- `connectWithRetry` (result of `connect()` when no connection is live),
paired with the number of `connectOnce` attempts performed. -/
def connectWithRetry (outcome : Nat → Option ErrInfo) (t : SSHTarget) :
    Except String Unit × Nat :=
  connectWithRetryGo outcome t 0 DEFAULT_CONNECT_RETRY_DELAYS_MS.length

/-! ## Profile data model (`src/config/types.ts`) -/

/-- `auth` variant of a profile. -/
inductive ProfileAuth where
  | password (password : String)
  | key (keyPath : String)
deriving DecidableEq

/-- A validated `ProfileDefinition` (defaults applied: `port` 22, `note` `""`,
`tags` `[]`). -/
structure Profile where
  id : String
  name : String
  host : String
  port : Nat := 22
  user : String
  auth : ProfileAuth
  suPassword : Option String := none
  sudoPassword : Option String := none
  note : String := ""
  tags : List String := []
deriving DecidableEq

/-! ## `findProfiles` (`src/profile/profile-manager.ts`)

```ts
let score = 0;
if (fields.id === normalized) score += 100;
if (fields.id.includes(normalized)) score += 50;
if (fields.host === normalized) score += 40;
if (fields.host.includes(normalized)) score += 20;
if (fields.name.includes(normalized)) score += 15;
if (fields.user.includes(normalized)) score += 10;
if (fields.note.includes(normalized)) score += 8;
if (fields.tags.some((tag) => tag.includes(normalized))) score += 12;
```
-/

/-- Weight of an exact id match. -/
def wIdExact : Nat := 100
/-- Weight of an id substring match. -/
def wIdSub : Nat := 50
/-- Weight of an exact host match. -/
def wHostExact : Nat := 40
/-- Weight of a host substring match. -/
def wHostSub : Nat := 20
/-- Weight of a name substring match. -/
def wNameSub : Nat := 15
/-- Weight of a user substring match. -/
def wUserSub : Nat := 10
/-- Weight of a note substring match. -/
def wNoteSub : Nat := 8
/-- Weight of a tag substring match. -/
def wTagSub : Nat := 12

/-- `query.trim().toLowerCase()`. -/
def normalizeQuery (query : String) : String := lowerStr (trimStr query)

/-- Score of one profile against the normalized query `n`. -/
def scoreProfile (n : String) (p : Profile) : Nat :=
  (if lowerStr p.id = n then wIdExact else 0) +
  (if strContains (lowerStr p.id) n then wIdSub else 0) +
  (if lowerStr p.host = n then wHostExact else 0) +
  (if strContains (lowerStr p.host) n then wHostSub else 0) +
  (if strContains (lowerStr p.name) n then wNameSub else 0) +
  (if strContains (lowerStr p.user) n then wUserSub else 0) +
  (if strContains (lowerStr p.note) n then wNoteSub else 0) +
  (if (p.tags.map lowerStr).any (fun tag => strContains tag n) then wTagSub else 0)

/-- Descending-score order used by `.sort((a, b) => b.score - a.score)`. -/
def scoreGE (a b : Profile × Nat) : Prop := b.2 ≤ a.2

instance : DecidableRel scoreGE := fun a b => Nat.decLe b.2 a.2

instance : IsTotal (Profile × Nat) scoreGE := ⟨fun a b => Nat.le_total b.2 a.2⟩

instance : IsTrans (Profile × Nat) scoreGE :=
  ⟨fun _ _ _ h1 h2 => Nat.le_trans h2 h1⟩

/-- `findProfiles(query)`: empty normalized query returns every profile
unchanged (and with no `matchScore`); otherwise profiles are scored,
zero scores dropped, the rest stably sorted by descending score
(JS `Array.prototype.sort` is stable; `List.insertionSort` with `scoreGE`
realizes exactly the stable descending order), each carrying its score. -/
def findProfiles (profiles : List Profile) (query : String) :
    List (Profile × Option Nat) :=
  let n := normalizeQuery query
  if n = "" then
    profiles.map (fun p => (p, none))
  else
    (List.insertionSort scoreGE
        ((profiles.map (fun p => (p, scoreProfile n p))).filter
          (fun sp => decide (0 < sp.2)))).map
      (fun sp => (sp.1, some sp.2))

/-! ### Stability and order of the sort -/

theorem filter_orderedInsert_scoreEq (s : Nat) (x : Profile × Nat)
    (l : List (Profile × Nat)) :
    (List.orderedInsert scoreGE x l).filter (fun y => y.2 == s) =
      (if x.2 = s then x :: l.filter (fun y => y.2 == s)
       else l.filter (fun y => y.2 == s)) := by
  induction l with
  | nil =>
    by_cases hx : x.2 = s <;> simp [List.orderedInsert, hx]
  | cons y ys ih =>
    by_cases hr : scoreGE x y
    · by_cases hx : x.2 = s <;>
        simp [List.orderedInsert, hr, hx]
    · have hy : ¬ y.2 = s ∨ ¬ x.2 = s := by
        by_cases hx : x.2 = s
        · left
          intro hys
          exact hr (by simp [scoreGE, hx, hys])
        · right; exact hx
      by_cases hx : x.2 = s
      · rcases hy with hy | hy
        · simp [List.orderedInsert, hr, List.filter_cons, hy, ih, hx]
        · exact absurd hx hy
      · by_cases hys : y.2 = s <;>
          simp [List.orderedInsert, hr, List.filter_cons, hys, ih, hx]

theorem filter_insertionSort_scoreEq (s : Nat) (l : List (Profile × Nat)) :
    (List.insertionSort scoreGE l).filter (fun y => y.2 == s) =
      l.filter (fun y => y.2 == s) := by
  induction l with
  | nil => rfl
  | cons x xs ih =>
    by_cases hx : x.2 = s <;>
      simp [List.insertionSort, filter_orderedInsert_scoreEq, hx, ih,
        List.filter_cons]

/-- The head of the stable descending sort is the element whose score is
strictly above every other element's. -/
theorem head_insertionSort_unique_max (l : List (Profile × Nat))
    (x : Profile × Nat) (hx : x ∈ l)
    (hmax : ∀ y ∈ l, y ≠ x → y.2 < x.2) :
    (List.insertionSort scoreGE l).head? = some x := by
  have hperm := List.perm_insertionSort scoreGE l
  have hsorted := List.sorted_insertionSort scoreGE l
  cases hsort : List.insertionSort scoreGE l with
  | nil =>
    have : x ∈ List.insertionSort scoreGE l := hperm.mem_iff.mpr hx
    rw [hsort] at this
    simp at this
  | cons h tl =>
    have hmem : ∀ y ∈ List.insertionSort scoreGE l, y ∈ l :=
      fun y hy => hperm.mem_iff.mp hy
    have hhl : h ∈ l := hmem h (by rw [hsort]; simp)
    by_cases hhx : h = x
    · simp [hhx]
    · exfalso
      have hlt : h.2 < x.2 := hmax h hhl hhx
      have hxmem : x ∈ List.insertionSort scoreGE l := hperm.mem_iff.mpr hx
      rw [hsort] at hxmem
      rcases List.mem_cons.mp hxmem with hxh | hxtl
      · exact hhx hxh.symm
      · rw [hsort] at hsorted
        have : scoreGE h x := (List.pairwise_cons.mp hsorted).1 x hxtl
        exact Nat.lt_irrefl _ (Nat.lt_of_le_of_lt this hlt)

/-! ## ProfileManager state (`src/profile/profile-manager.ts`)

The manager owns the raw document (`rawConfig`, persistence source of truth),
the validated projection (`config`), the runtime active id, the constructor
profile override, and the pending delete requests. The persisted file is the
explicit `disk` component; `saveRawProfilesConfig` writes the raw document to
it (serialization formatting is outside the model, so "byte-for-byte
unchanged" is modelled as equality of the written document). -/

/-- The raw/validated config document: `activeProfile` plus `profiles`
(`version`/`defaults` carry no behaviour used here). -/
structure RawConfig where
  activeProfile : String
  profiles : List Profile
deriving DecidableEq

/-- A `PendingDeleteRequest`. -/
structure PendingDelete where
  requestId : String
  profileId : String
  backupPath : String
  createdAt : Nat
  expiresAt : Nat
deriving DecidableEq

/-- State of an initialized `ProfileManager` plus the persisted file. -/
structure ManagerState where
  disk : RawConfig
  rawConfig : RawConfig
  config : RawConfig
  activeProfileId : String
  profileOverride : Option String
  pendingDeletes : List PendingDelete
deriving DecidableEq

/-- Outcome of a manager mutation: resolve or reject, with the state after
the call (rejections can still have mutated parts of the state). -/
inductive OpOutcome (α : Type) where
  | ok (value : α) (state : ManagerState)
  | err (message : String) (state : ManagerState)
deriving DecidableEq

/-- Whether the operation resolved. -/
def OpOutcome.isOk {α : Type} : OpOutcome α → Bool
  | .ok _ _ => true
  | .err _ _ => false

/-- The state after the operation. -/
def OpOutcome.state {α : Type} : OpOutcome α → ManagerState
  | .ok _ s => s
  | .err _ s => s

/-- `hasProfile` — some profile has this id. -/
def hasProfile (profiles : List Profile) (profileId : String) : Bool :=
  profiles.any (fun p => p.id == profileId)

/-! ### Validation (`src/config/loader.ts` + `src/config/types.ts`)

`validateRawProfilesConfig` = env expansion (outside the model) → zod schema
(`profilesConfigSchema`: non-empty scalars, port range, auth variant shape,
`min 1` on optional su/sudo secrets, ≥ 1 profile, unique ids) →
`ensureActiveProfileExists` → `validateProfileAuthFields` (trimmed password
non-empty; key path trimmed non-empty and existing, existence abstracted by
the `keyOk` predicate which absorbs `resolveKeyPath` + `access`). The model
collapses zod's per-field issues into one failure per stage: every claim
below depends only on *whether* validation fails, never on which message. -/

/-- zod `profileSchema` check of one profile. -/
def profileSchemaOk (p : Profile) : Bool :=
  !(p.id == "") && !(p.name == "") && !(p.host == "") && !(p.user == "") &&
  decide (0 < p.port) && decide (p.port ≤ 65535) &&
  (match p.auth with
   | .password pw => !(pw == "")
   | .key kp => !(kp == "")) &&
  (match p.suPassword with | some s => !(s == "") | none => true) &&
  (match p.sudoPassword with | some s => !(s == "") | none => true)

/-- The `superRefine` duplicate-id check. -/
def idsNodup : List Profile → Bool
  | [] => true
  | p :: rest => !(hasProfile rest p.id) && idsNodup rest

/-- `validateProfileAuthFields` check of one profile (trim semantics;
`keyOk` models resolved key-file existence). -/
def authFieldOk (keyOk : String → Bool) (p : Profile) : Bool :=
  match p.auth with
  | .password pw => !(trimStr pw == "")
  | .key kp => !(trimStr kp == "") && keyOk kp

/-- `validateRawProfilesConfig`. -/
def validateRawConfig (keyOk : String → Bool) (raw : RawConfig) :
    Except String RawConfig :=
  if raw.activeProfile == "" then
    Except.error "activeProfile is required"
  else if raw.profiles.isEmpty then
    Except.error "at least one profile is required"
  else if !(raw.profiles.all profileSchemaOk) then
    Except.error "profile schema violation"
  else if !(idsNodup raw.profiles) then
    Except.error "duplicate profile id"
  else if !(hasProfile raw.profiles raw.activeProfile) then
    Except.error ("activeProfile \"" ++ raw.activeProfile ++ "\" does not exist in profiles")
  else if !(raw.profiles.all (authFieldOk keyOk)) then
    Except.error "auth field validation failed"
  else
    Except.ok raw

/-! ### Active-profile resolution and persistence -/

/-- The candidate loop of `pickActiveProfileId`
(`if (!candidate) continue;` skips missing and empty candidates). -/
def pickFromCandidates (profiles : List Profile) :
    List (Option String) → Except String String
  | [] => Except.error "Unable to resolve an active profile from configuration"
  | none :: rest => pickFromCandidates profiles rest
  | some c :: rest =>
    if c = "" then pickFromCandidates profiles rest
    else if hasProfile profiles c then Except.ok c
    else pickFromCandidates profiles rest

/-- `pickActiveProfileId(loaded, preferred)` with the constructor override:
candidates are `[preferred, this.profileOverride, loaded.config.activeProfile]`. -/
def pickActiveProfileId (profiles : List Profile)
    (preferred override : Option String) (configActive : String) :
    Except String String :=
  pickFromCandidates profiles [preferred, override, some configActive]

/-- `persistRawConfig(nextRawConfig, preferredActiveId)`: validate, then save
to disk and swap the in-memory document, then re-resolve the runtime active
id (a failed re-resolution rejects after the save, mirroring the `await
saveRawProfilesConfig` happening before `pickActiveProfileId` in the source). -/
def persistRawConfig (keyOk : String → Bool) (st : ManagerState)
    (nextRaw : RawConfig) (preferred : Option String) : OpOutcome Unit :=
  match validateRawConfig keyOk nextRaw with
  | Except.error e => OpOutcome.err e st
  | Except.ok parsed =>
    let st1 : ManagerState :=
      { st with disk := nextRaw, rawConfig := nextRaw, config := parsed }
    match pickActiveProfileId parsed.profiles
        (some (preferred.getD st.activeProfileId)) st.profileOverride
        parsed.activeProfile with
    | Except.error e => OpOutcome.err e st1
    | Except.ok active => OpOutcome.ok () { st1 with activeProfileId := active }

/-! ### `createProfile` -/

/-- `ProfileCreateInput`. -/
structure ProfileCreateInput where
  id : String
  name : String
  host : String
  port : Option Nat := none
  user : String
  auth : ProfileAuth
  suPassword : Option String := none
  sudoPassword : Option String := none
  note : Option String := none
  tags : Option (List String) := none
  contextSummary : Option String := none
  activate : Option Bool := none
deriving DecidableEq

/-- Collapse every whitespace run to a single space
(JS `input.replace(/\s+/g, ' ')`); the flag records whether the previous
character was whitespace. -/
def collapseWsGo : Bool → List Char → List Char
  | _, [] => []
  | prevWs, c :: rest =>
    if c.isWhitespace then
      if prevWs then collapseWsGo true rest
      else ' ' :: collapseWsGo true rest
    else c :: collapseWsGo false rest

/-- `toShortNote`: single-spaced, trimmed, truncated to 120 chars with `...`. -/
def toShortNote (s : String) : String :=
  let normalized : String := trimStr ⟨collapseWsGo false s.data⟩
  if normalized.length ≤ 120 then normalized
  else ⟨normalized.data.take 117⟩ ++ "..."

/-- `defaultNoteForProfile`. -/
def defaultNoteForProfile (input : ProfileCreateInput) : String :=
  match input.note with
  | some n =>
    if !(trimStr n == "") then toShortNote n
    else defaultNoteHints input
  | none => defaultNoteHints input
where
  /-- The hint fallback: context summary, joined tags, `name(host)`. -/
  defaultNoteHints (input : ProfileCreateInput) : String :=
    let hints : List String :=
      (match input.contextSummary with
       | some cs => if !(trimStr cs == "") then [trimStr cs] else []
       | none => []) ++
      (match input.tags with
       | some ts => if !ts.isEmpty then ["tags:" ++ String.intercalate "," ts] else []
       | none => []) ++
      [input.name ++ "(" ++ input.host ++ ")"]
    toShortNote (String.intercalate " | " hints)

/-- The profile object handed to `profileSchema.parse` by `createProfile`
(note derived, defaults applied). -/
def builtProfile (input : ProfileCreateInput) : Profile :=
  { id := input.id, name := input.name, host := input.host,
    port := input.port.getD 22, user := input.user, auth := input.auth,
    suPassword := input.suPassword, sudoPassword := input.sudoPassword,
    note := defaultNoteForProfile input, tags := input.tags.getD [] }

/-- The raw profile entry pushed by `createProfile` (su/sudo dropped when
falsy, note taken from the parsed profile). -/
def rawProfileOf (input : ProfileCreateInput) : Profile :=
  { builtProfile input with
    suPassword := if jsTruthy input.suPassword then input.suPassword else none,
    sudoPassword := if jsTruthy input.sudoPassword then input.sudoPassword else none }

/-- `createProfile(input)`: duplicate-id check, zod parse of the built
profile, then push to the raw document (optionally activating) and persist. -/
def createProfile (keyOk : String → Bool) (st : ManagerState)
    (input : ProfileCreateInput) : OpOutcome Profile :=
  if hasProfile st.config.profiles input.id then
    OpOutcome.err ("Profile \"" ++ input.id ++ "\" already exists") st
  else if !(profileSchemaOk (builtProfile input)) then
    OpOutcome.err "profile validation failed" st
  else
    let shouldActivate := input.activate.getD true
    let nextRaw : RawConfig :=
      { activeProfile := if shouldActivate then input.id else st.rawConfig.activeProfile,
        profiles := st.rawConfig.profiles ++ [rawProfileOf input] }
    match persistRawConfig keyOk st nextRaw
        (if shouldActivate then some input.id else some st.activeProfileId) with
    | OpOutcome.err e st' => OpOutcome.err e st'
    | OpOutcome.ok _ st' => OpOutcome.ok (builtProfile input) st'

/-! ### Delete workflow -/

/-- `Map#get` over the pending-delete store. -/
def lookupPending (l : List PendingDelete) (reqId : String) :
    Option PendingDelete :=
  l.find? (fun p => p.requestId == reqId)

/-- `Map#delete`. -/
def removePending (l : List PendingDelete) (reqId : String) :
    List PendingDelete :=
  l.filter (fun p => !(p.requestId == reqId))

/-- Result of `prepareDeleteProfile` (summary/warning fields omitted). -/
structure PrepareResult where
  deleteRequestId : String
  backupPath : String
  expiresAt : Nat
  confirmationText : String
deriving DecidableEq

/-- `prepareDeleteProfile(profileId)`: existence and last-profile checks,
then a single-use request with a 10-minute expiry. `requestId` models
`randomUUID()`, `backupPath` the path returned by `backupCurrentConfig`,
`now` the clock (`Date.now()`). -/
def prepareDeleteProfile (st : ManagerState) (profileId : String)
    (requestId backupPath : String) (now : Nat) : OpOutcome PrepareResult :=
  match st.config.profiles.find? (fun p => p.id == profileId) with
  | none => OpOutcome.err ("Profile \"" ++ profileId ++ "\" does not exist") st
  | some _ =>
    if st.config.profiles.length ≤ 1 then
      OpOutcome.err "Cannot delete the last profile in config" st
    else
      let expiresAt := now + 10 * 60 * 1000
      let pending : PendingDelete :=
        { requestId := requestId, profileId := profileId,
          backupPath := backupPath, createdAt := now, expiresAt := expiresAt }
      OpOutcome.ok
        { deleteRequestId := requestId, backupPath := backupPath,
          expiresAt := expiresAt, confirmationText := "DELETE " ++ profileId }
        { st with pendingDeletes :=
            pending :: removePending st.pendingDeletes requestId }

/-- `readPersistedActiveProfileId`. -/
def readPersistedActiveProfileId (raw : RawConfig) (fallback : String) :
    String :=
  if !(trimStr raw.activeProfile == "") then raw.activeProfile else fallback

/-- `nextPersistedActiveId` / `normalizedPersistedActiveId` of
`confirmDeleteProfile`. -/
def normalizedPersistedAfterDelete (persisted deletedId : String)
    (remaining : List Profile) (firstId : String) : String :=
  let nextP := if persisted = deletedId then firstId else persisted
  if hasProfile remaining nextP then nextP else firstId

/-- `nextRuntimeActiveId` / `normalizedRuntimeActiveId` of
`confirmDeleteProfile`. -/
def normalizedRuntimeAfterDelete (runtime deletedId : String)
    (remaining : List Profile) (normPersisted : String) : String :=
  let nextR := if runtime = deletedId then normPersisted else runtime
  if hasProfile remaining nextR then nextR else normPersisted

/-- Result of `confirmDeleteProfile` (redacted summary omitted). -/
structure DeleteResult where
  deletedProfileId : String
  activeProfile : String
  persistedActiveProfile : String
  backupPath : String
deriving DecidableEq

/-- `confirmDeleteProfile(deleteRequestId, profileId, confirmationText)`. -/
def confirmDeleteProfile (keyOk : String → Bool) (st : ManagerState)
    (deleteRequestId profileId confirmationText : String) (now : Nat) :
    OpOutcome DeleteResult :=
  match lookupPending st.pendingDeletes deleteRequestId with
  | none =>
    OpOutcome.err
      ("Delete request \"" ++ deleteRequestId ++ "\" does not exist or expired") st
  | some pending =>
    if pending.expiresAt < now then
      OpOutcome.err ("Delete request \"" ++ deleteRequestId ++ "\" has expired")
        { st with pendingDeletes := removePending st.pendingDeletes deleteRequestId }
    else if pending.profileId ≠ profileId then
      OpOutcome.err "Delete request profile mismatch" st
    else if trimStr confirmationText ≠ "DELETE " ++ profileId then
      OpOutcome.err
        ("Invalid confirmationText. Expected exactly: \"DELETE " ++ profileId ++ "\"") st
    else
      match st.config.profiles.find? (fun p => p.id == profileId) with
      | none => OpOutcome.err ("Profile \"" ++ profileId ++ "\" does not exist") st
      | some _ =>
        let nextProfiles := st.config.profiles.filter (fun p => !(p.id == profileId))
        match nextProfiles.head? with
        | none => OpOutcome.err "Cannot delete the last profile in config" st
        | some firstRemaining =>
          let runtimeActiveId := st.activeProfileId
          let persistedActiveId :=
            readPersistedActiveProfileId st.rawConfig st.config.activeProfile
          let normalizedPersistedActiveId :=
            normalizedPersistedAfterDelete persistedActiveId profileId
              nextProfiles firstRemaining.id
          let normalizedRuntimeActiveId :=
            normalizedRuntimeAfterDelete runtimeActiveId profileId
              nextProfiles normalizedPersistedActiveId
          let rawFiltered := st.rawConfig.profiles.filter (fun p => !(p.id == profileId))
          if rawFiltered.length = st.rawConfig.profiles.length then
            OpOutcome.err ("Raw config profile \"" ++ profileId ++ "\" not found") st
          else
            let nextRaw : RawConfig :=
              { activeProfile := normalizedPersistedActiveId, profiles := rawFiltered }
            match persistRawConfig keyOk st nextRaw (some normalizedRuntimeActiveId) with
            | OpOutcome.err e st' => OpOutcome.err e st'
            | OpOutcome.ok _ st' =>
              OpOutcome.ok
                { deletedProfileId := profileId,
                  activeProfile := normalizedRuntimeActiveId,
                  persistedActiveProfile := normalizedPersistedActiveId,
                  backupPath := pending.backupPath }
                { st' with pendingDeletes :=
                    removePending st'.pendingDeletes deleteRequestId }

/-! ## Shared concrete fixtures (used by witnesses and counterexamples) -/

/-- A key-file oracle under which every key path exists. -/
def keyOkAll : String → Bool := fun _ => true

/-- Fixture profile `a`. -/
def profA : Profile :=
  { id := "a", name := "Alpha", host := "alpha.example.com", user := "root",
    auth := ProfileAuth.password "pw-a" }

/-- Fixture profile `b`. -/
def profB : Profile :=
  { id := "b", name := "Beta", host := "beta.example.com", user := "root",
    auth := ProfileAuth.password "pw-b" }

/-- Fixture profile `c`. -/
def profC : Profile :=
  { id := "c", name := "Gamma", host := "gamma.example.com", user := "root",
    auth := ProfileAuth.password "pw-c" }

/-- Fixture profile `g`. -/
def profG : Profile :=
  { id := "g", name := "Delta", host := "delta.example.com", user := "root",
    auth := ProfileAuth.password "pw-g" }

/-! ## C5 / C10 — default execution path, `close` handler -/

/-- C5: on the default (non-elevated) path, a channel close with non-empty
stderr rejects whatever the exit code, even when stdout was also produced;
the rejection message carries the stderr text. -/
theorem exec_nonempty_stderr_rejects (target : String) (code : Int)
    (stdout stderr : String) (h : stderr ≠ "") :
    ∃ msg, execCloseResult target code stdout stderr = Except.error msg ∧
      strMentions msg stderr := by
  refine ⟨"Error (code " ++ toString code ++ ") (" ++ target ++ "):\n" ++ stderr,
    ?_, ?_⟩
  · simp [execCloseResult, h]
  · exact ⟨"Error (code " ++ toString code ++ ") (" ++ target ++ "):\n", "",
      by rw [String.append_empty]⟩

/-- Witness for C5 at a concrete close event. -/
theorem exec_nonempty_stderr_rejects_witness :
    ∃ msg, execCloseResult "profileId=p1 host=h port=22" 0 "partial output"
        "boom" = Except.error msg ∧ strMentions msg "boom" :=
  exec_nonempty_stderr_rejects "profileId=p1 host=h port=22" 0 "partial output"
    "boom" (by decide)

/-- C10: on the default path, a close with empty stderr resolves with the
captured stdout even when the exit code is non-zero — the exit code is
never inspected. -/
theorem exec_empty_stderr_resolves (target : String) (code : Int)
    (stdout : String) (_hcode : code ≠ 0) :
    execCloseResult target code stdout "" = Except.ok stdout := by
  simp [execCloseResult]

/-- Witness for C10 at exit code 7. -/
theorem exec_empty_stderr_resolves_witness :
    execCloseResult "profileId=p1 host=h port=22" 7 "all good" "" =
      Except.ok "all good" :=
  exec_empty_stderr_resolves "profileId=p1 host=h port=22" 7 "all good"
    (by decide)

/-! ## C6 — elevation attempt on connect -/

/-- C6 counterexample: with the `SSH_MCP_TEST` environment variable set, a
successful connection attempt with a su secret makes no elevation attempt at
all, refuting "whenever … the profile carries a su secret, an elevation
attempt is made". -/
theorem connect_elevation_attempt_cex :
    connectReadyHandler (some "pw") true (Except.error "su authentication failed") =
      (false, Except.ok ()) := by
  decide

/-- C6 (amended): the ready handler always resolves `connect()` — an
elevation failure is swallowed — and the elevation attempt is made exactly
when the su secret is truthy and `SSH_MCP_TEST` is not set. -/
theorem connect_elevation_swallowed (su : Option String) (test : Bool)
    (elev : Except String Unit) :
    (connectReadyHandler su test elev).2 = Except.ok () ∧
    (jsTruthy su = true → test = false →
      (connectReadyHandler su test elev).1 = true) ∧
    ((connectReadyHandler su test elev).1 = true →
      jsTruthy su = true ∧ test = false) := by
  cases hsu : jsTruthy su <;> cases test <;> cases elev <;>
    simp [connectReadyHandler, hsu]

/-- Witness for C6's amended theorem: su secret set, test mode off, failed
elevation — the attempt happens and `connect()` still resolves. -/
theorem connect_elevation_swallowed_witness :
    (connectReadyHandler (some "pw") false (Except.error "su authentication failed")).2 =
      Except.ok () ∧
    (connectReadyHandler (some "pw") false (Except.error "su authentication failed")).1 =
      true :=
  ⟨(connect_elevation_swallowed (some "pw") false
      (Except.error "su authentication failed")).1,
   (connect_elevation_swallowed (some "pw") false
      (Except.error "su authentication failed")).2.1 (by decide) rfl⟩

/-! ## C4 — retry schedule, terminal auth failures, target context -/

theorem isAuthFailure_not_retryable (e : ErrInfo) (h : isAuthFailure e = true) :
    isRetryableConnectionError e = false := by
  simp [isRetryableConnectionError, h]

/-- Unfolding equation of the retry loop. -/
theorem connectWithRetryGo_eq (outcome : Nat → Option ErrInfo) (t : SSHTarget)
    (a remaining : Nat) :
    connectWithRetryGo outcome t a remaining =
      match outcome a with
      | none => (Except.ok (), 1)
      | some e =>
        match remaining with
        | 0 => (Except.error (wrapConnectionError t e), 1)
        | r + 1 =>
          if isRetryableConnectionError e = false then
            (Except.error (wrapConnectionError t e), 1)
          else
            ((connectWithRetryGo outcome t (a + 1) r).1,
             (connectWithRetryGo outcome t (a + 1) r).2 + 1) := by
  conv_lhs => unfold connectWithRetryGo

/-- The loop stops with the wrapped error of the attempt at index `a + k`
when the `k` attempts before it failed retryably and attempt `a + k` either
fails non-retryably or is the last scheduled attempt. -/
theorem connectWithRetryGo_fail (outcome : Nat → Option ErrInfo)
    (t : SSHTarget) (k : Nat) :
    ∀ (a remaining : Nat) (e : ErrInfo), k ≤ remaining →
    (∀ j, j < k → ∃ e', outcome (a + j) = some e' ∧
       isRetryableConnectionError e' = true) →
    outcome (a + k) = some e →
    (isRetryableConnectionError e = false ∨ k = remaining) →
    connectWithRetryGo outcome t a remaining =
      (Except.error (wrapConnectionError t e), k + 1) := by
  induction k with
  | zero =>
    intro a remaining e _ _ he hstop
    rw [Nat.add_zero] at he
    rw [connectWithRetryGo_eq, he]
    cases remaining with
    | zero => rfl
    | succ r =>
      rcases hstop with hnr | hzero
      · simp [hnr]
      · exact absurd hzero (by omega)
  | succ k ih =>
    intro a remaining e hk hpre he hstop
    obtain ⟨e0, he0, hr0⟩ := hpre 0 (Nat.succ_pos k)
    rw [Nat.add_zero] at he0
    cases remaining with
    | zero => exact absurd hk (by omega)
    | succ r =>
      have hrec : connectWithRetryGo outcome t (a + 1) r =
          (Except.error (wrapConnectionError t e), k + 1) := by
        refine ih (a + 1) r e (by omega) ?_ ?_ ?_
        · intro j hj
          obtain ⟨e', he', hr'⟩ := hpre (j + 1) (by omega)
          exact ⟨e', by rw [show a + 1 + j = a + (j + 1) by omega]; exact he', hr'⟩
        · rw [show a + 1 + k = a + (k + 1) by omega]
          exact he
        · rcases hstop with hnr | hlen
          · exact Or.inl hnr
          · exact Or.inr (by omega)
      rw [connectWithRetryGo_eq, he0]
      simp [hr0, hrec]

/-- C4: `connect()` performs one initial attempt plus two retries for
retryably-classified failures (transport codes
refused/reset/unreachable/timed-out, handshake/negotiation-class messages);
an attempt failing with an authentication-failure signature is terminal at
once; and the error finally raised names the logical target (profile id,
host, port). -/
theorem connect_retry_policy (t : SSHTarget) (outcome : Nat → Option ErrInfo) :
    DEFAULT_CONNECT_RETRY_DELAYS_MS.length = 2 ∧
    (∀ k e, k ≤ DEFAULT_CONNECT_RETRY_DELAYS_MS.length →
       (∀ j, j < k → ∃ e', outcome j = some e' ∧
          isRetryableConnectionError e' = true) →
       outcome k = some e → isAuthFailure e = true →
       connectWithRetry outcome t =
         (Except.error (wrapConnectionError t e), k + 1)) ∧
    ((∀ j, j ≤ DEFAULT_CONNECT_RETRY_DELAYS_MS.length →
        ∃ e', outcome j = some e' ∧ isRetryableConnectionError e' = true) →
      ∃ e, outcome DEFAULT_CONNECT_RETRY_DELAYS_MS.length = some e ∧
        connectWithRetry outcome t =
          (Except.error (wrapConnectionError t e),
            DEFAULT_CONNECT_RETRY_DELAYS_MS.length + 1)) ∧
    (∀ e, strMentions (wrapConnectionError t e) t.host ∧
       strMentions (wrapConnectionError t e) (toString t.port) ∧
       ∀ pid, t.profileId = some pid → pid ≠ "" →
         strMentions (wrapConnectionError t e) pid) := by
  refine ⟨rfl, ?_, ?_, ?_⟩
  · intro k e hk hpre he hauth
    unfold connectWithRetry
    refine connectWithRetryGo_fail outcome t k 0 _ e hk ?_ ?_ ?_
    · intro j hj
      obtain ⟨e', he', hr'⟩ := hpre j hj
      exact ⟨e', by rw [Nat.zero_add]; exact he', hr'⟩
    · rw [Nat.zero_add]; exact he
    · exact Or.inl (isAuthFailure_not_retryable e hauth)
  · intro hall
    obtain ⟨e, he, hr⟩ := hall DEFAULT_CONNECT_RETRY_DELAYS_MS.length (Nat.le_refl _)
    refine ⟨e, he, ?_⟩
    unfold connectWithRetry
    refine connectWithRetryGo_fail outcome t
      DEFAULT_CONNECT_RETRY_DELAYS_MS.length 0 _ e (Nat.le_refl _) ?_ ?_ (Or.inr rfl)
    · intro j hj
      obtain ⟨e', he', hr'⟩ := hall j (by omega)
      exact ⟨e', by rw [Nat.zero_add]; exact he', hr'⟩
    · rw [Nat.zero_add]; exact he
  · intro e
    obtain ⟨pid, hpid, hsel⟩ : ∃ pid,
        formatTargetContext t =
          "profileId=" ++ pid ++ " host=" ++ t.host ++ " port=" ++ toString t.port ∧
        (∀ p, t.profileId = some p → p ≠ "" → pid = p) := by
      cases hp : t.profileId with
      | none =>
        refine ⟨"unknown", ?_, by intro p h; cases h⟩
        simp [formatTargetContext, hp]
      | some s =>
        by_cases hs : s = ""
        · refine ⟨"unknown", ?_, ?_⟩
          · simp [formatTargetContext, hp, hs]
          · intro p h he
            rw [Option.some.injEq] at h
            exact absurd (h ▸ hs) he
        · refine ⟨s, ?_, ?_⟩
          · simp [formatTargetContext, hp, hs]
          · intro p h _
            rw [Option.some.injEq] at h
            exact h
    refine ⟨?_, ?_, ?_⟩
    · refine ⟨"SSH connection error (" ++ ("profileId=" ++ pid ++ " host="),
        " port=" ++ toString t.port ++ ("): " ++ e.message), ?_⟩
      simp [wrapConnectionError, hpid, String.append_assoc]
    · refine ⟨"SSH connection error (" ++
        ("profileId=" ++ pid ++ " host=" ++ t.host ++ " port="),
        "): " ++ e.message, ?_⟩
      simp [wrapConnectionError, hpid, String.append_assoc]
    · intro p hp hpe
      rw [hsel p hp hpe] at hpid
      have hm : strMentions (wrapConnectionError t e) ("profileId=" ++ p) := by
        refine ⟨"SSH connection error (",
          " host=" ++ t.host ++ " port=" ++ toString t.port ++ ("): " ++ e.message), ?_⟩
        simp [wrapConnectionError, hpid, String.append_assoc]
      exact strMentions_trans hm ⟨"profileId=", "", by rw [String.append_empty]⟩

/-- Connection-refused fixture error. -/
def errRefused : ErrInfo :=
  { message := "connect ECONNREFUSED 127.0.0.1:22", code := some "ECONNREFUSED" }

/-- Authentication-failure fixture error. -/
def errAuth : ErrInfo :=
  { message := "All configured authentication methods failed", code := none }

/-- Fixture target. -/
def targetW : SSHTarget :=
  { profileId := some "p1", host := "127.0.0.1", port := 22 }

/-- Witness for C4: a permanent `ECONNREFUSED` failure exhausts the three
scheduled attempts, and a first-attempt authentication failure stops at one
attempt; both errors carry the wrapped target context. -/
theorem connect_retry_policy_witness :
    (∃ e, (fun _ => some errRefused : Nat → Option ErrInfo)
          DEFAULT_CONNECT_RETRY_DELAYS_MS.length = some e ∧
      connectWithRetry (fun _ => some errRefused) targetW =
        (Except.error (wrapConnectionError targetW e),
          DEFAULT_CONNECT_RETRY_DELAYS_MS.length + 1)) ∧
    connectWithRetry (fun _ => some errAuth) targetW =
      (Except.error (wrapConnectionError targetW errAuth), 0 + 1) :=
  ⟨(connect_retry_policy targetW (fun _ => some errRefused)).2.2.1
      (fun _ _ => ⟨errRefused, rfl, by decide⟩),
   (connect_retry_policy targetW (fun _ => some errAuth)).2.1 0 errAuth (by decide)
      (fun j hj => absurd hj (Nat.not_lt_zero j)) rfl (by decide)⟩

/-! ## C3 / C8 — `findProfiles` scoring, ordering, stability -/

/-- Note-substring-only fixture profile (matches query `x` only in its note). -/
def pNoteOnly : Profile :=
  { id := "n1", name := "NN", host := "h1", user := "u1",
    auth := ProfileAuth.password "p", note := "xx" }

/-- Tag-substring-only fixture profile (matches query `x` only in a tag). -/
def pTagOnly : Profile :=
  { id := "t1", name := "TT", host := "h2", user := "u2",
    auth := ProfileAuth.password "p", tags := ["x"] }

/-- C3 counterexample: the per-field weights are not descending in the
claimed order — a tag substring (12) outweighs both a user substring (10)
and a note substring (8), so a tag-only match ranks above a note-only
match. -/
theorem findProfiles_weights_cex :
    ¬ wUserSub > wTagSub ∧ ¬ wNoteSub > wTagSub ∧
    findProfiles [pNoteOnly, pTagOnly] "x" =
      [(pTagOnly, some wTagSub), (pNoteOnly, some wNoteSub)] := by
  decide

/-- C3 (amended): weights are strictly descending in the order exact id,
id substring, exact host, host substring, name substring, *tag substring*,
*user substring*, *note substring*; zero scores are excluded while every
positively scoring profile is returned with its score attached; and
entries of equal score keep their original order. -/
theorem findProfiles_scoring_spec :
    (wIdExact > wIdSub ∧ wIdSub > wHostExact ∧ wHostExact > wHostSub ∧
     wHostSub > wNameSub ∧ wNameSub > wTagSub ∧ wTagSub > wUserSub ∧
     wUserSub > wNoteSub) ∧
    ∀ (profiles : List Profile) (query : String),
      normalizeQuery query ≠ "" →
      (∀ x ∈ findProfiles profiles query,
         ∃ s, x.2 = some s ∧ 0 < s ∧
           s = scoreProfile (normalizeQuery query) x.1) ∧
      (∀ p ∈ profiles, 0 < scoreProfile (normalizeQuery query) p →
         (p, some (scoreProfile (normalizeQuery query) p)) ∈
           findProfiles profiles query) ∧
      (∀ s : Nat, 0 < s →
         (findProfiles profiles query).filter (fun x => x.2 == some s) =
           (profiles.filter
             (fun p => scoreProfile (normalizeQuery query) p == s)).map
             (fun p => (p, some s))) := by
  refine ⟨by decide, ?_⟩
  intro profiles query hq
  have hfp : findProfiles profiles query =
      (List.insertionSort scoreGE
        ((profiles.map (fun p => (p, scoreProfile (normalizeQuery query) p))).filter
          (fun sp => decide (0 < sp.2)))).map
        (fun sp => (sp.1, some sp.2)) := by
    unfold findProfiles
    rw [if_neg hq]
  have hperm := List.perm_insertionSort scoreGE
    ((profiles.map (fun p => (p, scoreProfile (normalizeQuery query) p))).filter
      (fun sp => decide (0 < sp.2)))
  refine ⟨?_, ?_, ?_⟩
  · intro x hx
    rw [hfp] at hx
    obtain ⟨sp, hsp, hx⟩ := List.mem_map.mp hx
    have hsp' := hperm.mem_iff.mp hsp
    obtain ⟨hsp'', hpos⟩ := List.mem_filter.mp hsp'
    obtain ⟨p, _, hgp⟩ := List.mem_map.mp hsp''
    refine ⟨sp.2, ?_, ?_, ?_⟩
    · rw [← hx]
    · exact of_decide_eq_true hpos
    · rw [← hx, ← hgp]
  · intro p hp hpos
    rw [hfp]
    refine List.mem_map.mpr ⟨(p, scoreProfile (normalizeQuery query) p), ?_, rfl⟩
    refine hperm.mem_iff.mpr (List.mem_filter.mpr ⟨?_, by simpa using hpos⟩)
    exact List.mem_map.mpr ⟨p, hp, rfl⟩
  · intro s hs
    rw [hfp, List.filter_map]
    have hq1 : ((List.insertionSort scoreGE
        ((profiles.map (fun p => (p, scoreProfile (normalizeQuery query) p))).filter
          (fun sp => decide (0 < sp.2)))).filter
        ((fun x : Profile × Option Nat => x.2 == some s) ∘
          (fun sp : Profile × Nat => (sp.1, some sp.2)))) =
        ((profiles.map (fun p => (p, scoreProfile (normalizeQuery query) p))).filter
          (fun sp => decide (0 < sp.2))).filter
          (fun sp => sp.2 == s) := by
      rw [List.filter_congr (fun x _ => by
        show ((x.1, some x.2).2 == some s) = (x.2 == s)
        rfl)]
      exact filter_insertionSort_scoreEq s _
    rw [hq1, List.filter_filter]
    have hq2 : ((profiles.map
        (fun p => (p, scoreProfile (normalizeQuery query) p))).filter
        (fun sp => (sp.2 == s) && decide (0 < sp.2))) =
        (profiles.filter
          (fun p => scoreProfile (normalizeQuery query) p == s)).map
          (fun p => (p, scoreProfile (normalizeQuery query) p)) := by
      rw [List.filter_map]
      refine congrArg _ (List.filter_congr (fun p _ => ?_))
      show ((scoreProfile (normalizeQuery query) p == s) &&
          decide (0 < scoreProfile (normalizeQuery query) p)) =
        (scoreProfile (normalizeQuery query) p == s)
      by_cases h : scoreProfile (normalizeQuery query) p = s
      · simp [h, hs]
      · simp [h]
    rw [hq2, List.map_map]
    refine List.map_congr_left (fun p hp => ?_)
    obtain ⟨_, hps⟩ := List.mem_filter.mp hp
    show (p, some (scoreProfile (normalizeQuery query) p)) = (p, some s)
    rw [of_decide_eq_true hps]

/-- Witness for C3's amended theorem on a concrete store and query. -/
theorem findProfiles_scoring_spec_witness :
    (pTagOnly, some (scoreProfile (normalizeQuery "x") pTagOnly)) ∈
      findProfiles [pNoteOnly, pTagOnly] "x" :=
  ((findProfiles_scoring_spec.2 [pNoteOnly, pTagOnly] "x" (by decide)).2.1
    pTagOnly (by decide) (by decide))

/-- All-field fixture profile: contains `alpha` in its id, equals it in host,
and contains it in name, user, note and a tag — scoring 155. -/
def pRich : Profile :=
  { id := "xalphax", name := "alpha-name", host := "alpha", user := "alpha-user",
    auth := ProfileAuth.password "p", note := "see alpha", tags := ["alpha-tag"] }

/-- Exact-id fixture profile for the query `alpha`, scoring 150. -/
def pExact : Profile :=
  { id := "alpha", name := "Beta", host := "h1", user := "u1",
    auth := ProfileAuth.password "p" }

/-- C8 counterexample: the query `alpha` equals `pExact`'s id exactly, yet
`pRich` (no exact id match, score 155 from the remaining fields) ranks
first. -/
theorem findProfiles_exact_rank_cex :
    pExact.id = "alpha" ∧ pRich.id ≠ "alpha" ∧
    (findProfiles [pRich, pExact] "alpha").head? = some (pRich, some 155) := by
  decide

/-- A profile matching the normalized query in id (substring), host
(exactly) and in name, user, note and a tag: the only way to outscore an
exact id match. -/
def outranksExact (n : String) (p : Profile) : Bool :=
  strContains (lowerStr p.id) n && (lowerStr p.host == n) &&
  strContains (lowerStr p.name) n && strContains (lowerStr p.user) n &&
  strContains (lowerStr p.note) n &&
  (p.tags.map lowerStr).any (fun tag => strContains tag n)

theorem strContains_of_eq (a n : String) (h : a = n) : strContains a n = true :=
  h ▸ strContains_refl n

theorem score_exact_ge (n : String) (p : Profile) (h : lowerStr p.id = n) :
    wIdExact + wIdSub ≤ scoreProfile n p := by
  unfold scoreProfile
  rw [if_pos h, if_pos (strContains_of_eq _ _ h)]
  omega

theorem score_nonexact_lt (n : String) (p : Profile) (hid : lowerStr p.id ≠ n)
    (hout : outranksExact n p = false) :
    scoreProfile n p < wIdExact + wIdSub := by
  unfold scoreProfile
  simp only [wIdExact, wIdSub, wHostExact, wHostSub, wNameSub, wUserSub,
    wNoteSub, wTagSub]
  rw [if_neg hid]
  have hb2 : (if strContains (lowerStr p.id) n then 50 else 0) ≤ 50 := by
    split_ifs <;> omega
  have hb3 : (if lowerStr p.host = n then 40 else 0) ≤ 40 := by
    split_ifs <;> omega
  have hb4 : (if strContains (lowerStr p.host) n then 20 else 0) ≤ 20 := by
    split_ifs <;> omega
  have hb5 : (if strContains (lowerStr p.name) n then 15 else 0) ≤ 15 := by
    split_ifs <;> omega
  have hb6 : (if strContains (lowerStr p.user) n then 10 else 0) ≤ 10 := by
    split_ifs <;> omega
  have hb7 : (if strContains (lowerStr p.note) n then 8 else 0) ≤ 8 := by
    split_ifs <;> omega
  have hb8 : (if (p.tags.map lowerStr).any (fun tag => strContains tag n)
      then 12 else 0) ≤ 12 := by
    split_ifs <;> omega
  by_cases h2 : strContains (lowerStr p.id) n = true
  case neg => rw [if_neg h2]; omega
  by_cases h3 : lowerStr p.host = n
  case neg => rw [if_neg h3]; omega
  by_cases h5 : strContains (lowerStr p.name) n = true
  case neg => rw [if_neg h5]; omega
  by_cases h6 : strContains (lowerStr p.user) n = true
  case neg => rw [if_neg h6]; omega
  by_cases h7 : strContains (lowerStr p.note) n = true
  case neg => rw [if_neg h7]; omega
  by_cases h8 : (p.tags.map lowerStr).any (fun tag => strContains tag n) = true
  case neg => rw [if_neg h8]; omega
  have htrue : outranksExact n p = true := by
    simp [outranksExact, h2, h3, h5, h6, h7, h8]
  rw [hout] at htrue
  exact Bool.noConfusion htrue

/-- C8 (amended): `findProfiles("")` returns every profile unfiltered in
original order; and for a query equal (case-normalized) to exactly one
profile's id, that profile ranks first among the results *unless* some other
profile matches the query in id (substring), host (exactly), name, user,
note and a tag at once (scoring 155 against the exact match's minimum 150). -/
theorem findProfiles_empty_and_exact_rank :
    (∀ profiles : List Profile,
      findProfiles profiles "" = profiles.map (fun p => (p, none))) ∧
    ∀ (pre post : List Profile) (p : Profile) (query : String),
      lowerStr p.id = normalizeQuery query →
      normalizeQuery query ≠ "" →
      (∀ q ∈ pre ++ post, lowerStr q.id ≠ normalizeQuery query) →
      (∀ q ∈ pre ++ post, outranksExact (normalizeQuery query) q = false) →
      (findProfiles (pre ++ p :: post) query).head? =
        some (p, some (scoreProfile (normalizeQuery query) p)) := by
  constructor
  · intro profiles
    unfold findProfiles
    rw [if_pos (by decide)]
  · intro pre post p query hid hq hothers houtrank
    set n := normalizeQuery query with hn
    have hfp : findProfiles (pre ++ p :: post) query =
        (List.insertionSort scoreGE
          (((pre ++ p :: post).map (fun q => (q, scoreProfile n q))).filter
            (fun sp => decide (0 < sp.2)))).map
          (fun sp => (sp.1, some sp.2)) := by
      unfold findProfiles
      rw [if_neg hq]
    have hge := score_exact_ge n p hid
    have hx : (p, scoreProfile n p) ∈
        (((pre ++ p :: post).map (fun q => (q, scoreProfile n q))).filter
          (fun sp => decide (0 < sp.2))) := by
      refine List.mem_filter.mpr ⟨?_, ?_⟩
      · exact List.mem_map.mpr ⟨p, by simp, rfl⟩
      · have : 0 < scoreProfile n p := by
          have : (0:Nat) < wIdExact + wIdSub := by decide
          omega
        simpa using this
    have hmax : ∀ y ∈ (((pre ++ p :: post).map
        (fun q => (q, scoreProfile n q))).filter (fun sp => decide (0 < sp.2))),
        y ≠ (p, scoreProfile n p) → y.2 < (p, scoreProfile n p).2 := by
      intro y hy hne
      obtain ⟨hy', _⟩ := List.mem_filter.mp hy
      obtain ⟨q, hqmem, hgq⟩ := List.mem_map.mp hy'
      rcases List.mem_append.mp hqmem with hqpre | hqcons
      · have hqo : q ∈ pre ++ post := List.mem_append.mpr (Or.inl hqpre)
        have hlt := score_nonexact_lt n q (hothers q hqo) (houtrank q hqo)
        rw [← hgq]
        exact Nat.lt_of_lt_of_le hlt hge
      · rcases List.mem_cons.mp hqcons with hqp | hqpost
        · exact absurd (by rw [← hgq, hqp]) hne
        · have hqo : q ∈ pre ++ post := List.mem_append.mpr (Or.inr hqpost)
          have hlt := score_nonexact_lt n q (hothers q hqo) (houtrank q hqo)
          rw [← hgq]
          exact Nat.lt_of_lt_of_le hlt hge
    have hhead := head_insertionSort_unique_max _ _ hx hmax
    rw [hfp, List.head?_map, hhead]
    rfl

/-- Witness for C8's amended theorem: `alpha` is the exact id of `pExact`
and no other profile of the store outranks it, so it ranks first. -/
theorem findProfiles_empty_and_exact_rank_witness :
    (findProfiles [pNoteOnly, pExact] "alpha").head? =
      some (pExact, some (scoreProfile (normalizeQuery "alpha") pExact)) :=
  findProfiles_empty_and_exact_rank.2 [pNoteOnly] [] pExact "alpha"
    (by decide) (by decide) (by decide) (by decide)

/-! ## Helper lemmas on validation, resolution, persistence -/

theorem validateRawConfig_ok_eq (keyOk : String → Bool) (raw c : RawConfig)
    (h : validateRawConfig keyOk raw = Except.ok c) : c = raw := by
  unfold validateRawConfig at h
  repeat' split at h
  all_goals first
    | exact Except.noConfusion h
    | (rw [Except.ok.injEq] at h; exact h.symm)

theorem validateRawConfig_ok_checks (keyOk : String → Bool) (raw c : RawConfig)
    (h : validateRawConfig keyOk raw = Except.ok c) :
    raw.profiles.all profileSchemaOk = true ∧
    raw.profiles.all (authFieldOk keyOk) = true ∧
    hasProfile raw.profiles raw.activeProfile = true := by
  unfold validateRawConfig at h
  repeat' split at h
  all_goals try exact Except.noConfusion h
  rename_i h1 h2 h3 h4 h5 h6
  refine ⟨?_, ?_, ?_⟩
  · revert h3; cases raw.profiles.all profileSchemaOk <;> simp
  · revert h6; cases raw.profiles.all (authFieldOk keyOk) <;> simp
  · revert h5; cases hasProfile raw.profiles raw.activeProfile <;> simp

theorem validateRawConfig_not_ok_of_authBad (keyOk : String → Bool)
    (raw : RawConfig) (p : Profile) (hp : p ∈ raw.profiles)
    (hbad : authFieldOk keyOk p = false) :
    ∀ c, validateRawConfig keyOk raw ≠ Except.ok c := by
  intro c h
  obtain ⟨_, hall, _⟩ := validateRawConfig_ok_checks keyOk raw c h
  have := List.all_eq_true.mp hall p hp
  rw [hbad] at this
  exact Bool.noConfusion this

theorem pickActiveProfileId_first (profiles : List Profile) (c : String)
    (ov : Option String) (ca : String) (hc : c ≠ "")
    (hhas : hasProfile profiles c = true) :
    pickActiveProfileId profiles (some c) ov ca = Except.ok c := by
  unfold pickActiveProfileId pickFromCandidates
  rw [if_neg hc, if_pos hhas]

theorem persistRawConfig_ok_inv (keyOk : String → Bool) (st : ManagerState)
    (nextRaw : RawConfig) (preferred : Option String) (u : Unit)
    (st' : ManagerState)
    (h : persistRawConfig keyOk st nextRaw preferred = OpOutcome.ok u st') :
    st'.disk = nextRaw ∧ st'.rawConfig = nextRaw ∧ st'.config = nextRaw ∧
    st'.profileOverride = st.profileOverride ∧
    st'.pendingDeletes = st.pendingDeletes ∧
    pickActiveProfileId nextRaw.profiles (some (preferred.getD st.activeProfileId))
      st.profileOverride nextRaw.activeProfile = Except.ok st'.activeProfileId ∧
    validateRawConfig keyOk nextRaw = Except.ok nextRaw := by
  unfold persistRawConfig at h
  split at h
  · exact OpOutcome.noConfusion h
  · rename_i parsed hval
    have hpe := validateRawConfig_ok_eq keyOk nextRaw parsed hval
    subst hpe
    split at h
    · exact OpOutcome.noConfusion h
    · rename_i active hpick
      rw [OpOutcome.ok.injEq] at h
      rw [← h.2]
      exact ⟨rfl, rfl, rfl, rfl, rfl, hpick, hval⟩

theorem persistRawConfig_err_inv (keyOk : String → Bool) (st : ManagerState)
    (nextRaw : RawConfig) (preferred : Option String) (e : String)
    (st' : ManagerState)
    (h : persistRawConfig keyOk st nextRaw preferred = OpOutcome.err e st') :
    st'.pendingDeletes = st.pendingDeletes ∧
    st'.activeProfileId = st.activeProfileId := by
  unfold persistRawConfig at h
  split at h
  · rw [OpOutcome.err.injEq] at h
    rw [← h.2]
    exact ⟨rfl, rfl⟩
  · split at h
    · rw [OpOutcome.err.injEq] at h
      rw [← h.2]
      exact ⟨rfl, rfl⟩
    · exact OpOutcome.noConfusion h

theorem persistRawConfig_of_validate_err (keyOk : String → Bool)
    (st : ManagerState) (nextRaw : RawConfig) (preferred : Option String)
    (e : String) (h : validateRawConfig keyOk nextRaw = Except.error e) :
    persistRawConfig keyOk st nextRaw preferred = OpOutcome.err e st := by
  unfold persistRawConfig
  rw [h]

theorem hasProfile_filter_self (profiles : List Profile) (x : String) :
    hasProfile (profiles.filter (fun p => !(p.id == x))) x = false := by
  unfold hasProfile
  rw [Bool.eq_false_iff]
  intro h
  obtain ⟨p, hp, hpx⟩ := List.any_eq_true.mp h
  obtain ⟨_, hne⟩ := List.mem_filter.mp hp
  rw [hpx] at hne
  exact Bool.noConfusion hne

theorem hasProfile_of_head (profiles : List Profile) (p : Profile)
    (h : profiles.head? = some p) : hasProfile profiles p.id = true := by
  cases profiles with
  | nil => exact Option.noConfusion h
  | cons q rest =>
    rw [List.head?_cons, Option.some.injEq] at h
    subst h
    unfold hasProfile
    simp

theorem hasProfile_id_ne_empty (profiles : List Profile) (x : String)
    (hall : profiles.all profileSchemaOk = true)
    (hhas : hasProfile profiles x = true) : x ≠ "" := by
  obtain ⟨p, hp, hpx⟩ := List.any_eq_true.mp hhas
  have hs := List.all_eq_true.mp hall p hp
  unfold profileSchemaOk at hs
  intro hx
  rw [eq_of_beq hpx] at hs
  rw [hx] at hs
  simp at hs

theorem normalizedPersisted_has (persisted deletedId : String)
    (remaining : List Profile) (firstId : String)
    (hfirst : hasProfile remaining firstId = true) :
    hasProfile remaining
      (normalizedPersistedAfterDelete persisted deletedId remaining firstId) =
      true := by
  unfold normalizedPersistedAfterDelete
  dsimp only
  split_ifs <;> assumption

theorem normalizedRuntime_has (runtime deletedId : String)
    (remaining : List Profile) (np : String)
    (hnp : hasProfile remaining np = true) :
    hasProfile remaining
      (normalizedRuntimeAfterDelete runtime deletedId remaining np) = true := by
  unfold normalizedRuntimeAfterDelete
  dsimp only
  split_ifs <;> assumption

/-- The source's two-step persisted recomputation is exactly the
"keep current if still present, else first remaining" rule (provided the
deleted id is gone and the first remaining id is present). -/
theorem normalizedPersisted_eq_keepOrFirst (persisted deletedId : String)
    (remaining : List Profile) (firstId : String)
    (hdel : hasProfile remaining deletedId = false)
    (hfirst : hasProfile remaining firstId = true) :
    normalizedPersistedAfterDelete persisted deletedId remaining firstId =
      (if hasProfile remaining persisted = true then persisted else firstId) := by
  unfold normalizedPersistedAfterDelete
  dsimp only
  by_cases hp : persisted = deletedId
  · subst hp
    rw [if_pos rfl, if_pos hfirst, if_neg (by rw [hdel]; exact Bool.noConfusion)]
  · rw [if_neg hp]

/-- The source's runtime recomputation: keep the runtime id when it is not
the deleted one and still present, else fall back to the recomputed
persisted id. -/
theorem normalizedRuntime_eq (runtime deletedId : String)
    (remaining : List Profile) (np : String)
    (hdel : hasProfile remaining deletedId = false)
    (hnp : hasProfile remaining np = true) :
    normalizedRuntimeAfterDelete runtime deletedId remaining np =
      (if runtime ≠ deletedId ∧ hasProfile remaining runtime = true
       then runtime else np) := by
  unfold normalizedRuntimeAfterDelete
  dsimp only
  by_cases hr : runtime = deletedId
  · subst hr
    rw [if_pos rfl, if_pos hnp, if_neg (fun hc => hc.1 rfl)]
  · rw [if_neg hr]
    by_cases hh : hasProfile remaining runtime = true
    · rw [if_pos hh, if_pos ⟨hr, hh⟩]
    · rw [if_neg hh, if_neg (fun hc => hh hc.2)]

/-! ## C1 — confirmation text comparison -/

/-- Raw two-profile config fixture. -/
def rawAG : RawConfig := { activeProfile := "a", profiles := [profA, profG] }

/-- Pending delete request fixture for profile `g`. -/
def pendG : PendingDelete :=
  { requestId := "req-1", profileId := "g", backupPath := "backup-1",
    createdAt := 0, expiresAt := 600000 }

/-- Manager fixture with a pending delete request for profile `g`. -/
def stC1 : ManagerState :=
  { disk := rawAG, rawConfig := rawAG, config := rawAG, activeProfileId := "a",
    profileOverride := none, pendingDeletes := [pendG] }

/-- C1 counterexample: the confirmation text `" DELETE g "` is not exactly
the literal `"DELETE g"` (it carries surrounding whitespace), yet
`confirmDeleteProfile` succeeds, because the source compares
`confirmationText.trim()` against the literal. -/
theorem confirmDelete_literal_cex :
    " DELETE g " ≠ "DELETE g" ∧
    (confirmDeleteProfile keyOkAll stC1 "req-1" "g" " DELETE g " 0).isOk = true ∧
    hasProfile (confirmDeleteProfile keyOkAll stC1 "req-1" "g" " DELETE g "
      0).state.config.profiles "g" = false := by
  decide

/-- C1 (amended): `confirmDeleteProfile` fails whenever the *trimmed*
confirmation text differs from the literal `"DELETE <id>"`, and any success
has a trimmed confirmation text equal to that literal and leaves a store
without the profile. -/
theorem confirmDelete_trimmed_literal (keyOk : String → Bool)
    (st : ManagerState) (reqId id text : String) (now : Nat) :
    (trimStr text ≠ "DELETE " ++ id →
      (confirmDeleteProfile keyOk st reqId id text now).isOk = false) ∧
    (∀ r st', confirmDeleteProfile keyOk st reqId id text now =
        OpOutcome.ok r st' →
      trimStr text = "DELETE " ++ id ∧
      hasProfile st'.config.profiles id = false) := by
  constructor
  · intro h
    unfold confirmDeleteProfile
    repeat' split
    all_goals rfl
  · intro r st' h
    unfold confirmDeleteProfile at h
    split at h
    · exact OpOutcome.noConfusion h
    split at h
    · exact OpOutcome.noConfusion h
    split at h
    · exact OpOutcome.noConfusion h
    split at h
    · exact OpOutcome.noConfusion h
    rename_i htext
    refine ⟨not_not.mp htext, ?_⟩
    dsimp only at h
    split at h
    · exact OpOutcome.noConfusion h
    split at h
    · exact OpOutcome.noConfusion h
    split at h
    · exact OpOutcome.noConfusion h
    split at h
    · exact OpOutcome.noConfusion h
    rename_i u stP hpersist
    rw [OpOutcome.ok.injEq] at h
    obtain ⟨hpd, hrc, hcfg, _, _, _, _⟩ :=
      persistRawConfig_ok_inv keyOk st _ _ u stP hpersist
    rw [← h.2]
    show hasProfile stP.config.profiles id = false
    rw [hcfg]
    exact hasProfile_filter_self _ _

/-- Witness for C1's amended theorem: wrong text fails; the exact (trimmed)
text succeeds and removes the profile. -/
theorem confirmDelete_trimmed_literal_witness :
    (confirmDeleteProfile keyOkAll stC1 "req-1" "g" "DELETE a" 0).isOk =
      false :=
  (confirmDelete_trimmed_literal keyOkAll stC1 "req-1" "g" "DELETE a" 0).1
    (by decide)

/-! ## C2 — recomputation of the persisted and runtime active ids -/

/-- Three-profile raw config fixture whose persisted active id is `b`. -/
def rawABC : RawConfig := { activeProfile := "b", profiles := [profA, profB, profC] }

/-- Pending delete request fixture for profile `c`. -/
def pendC : PendingDelete :=
  { requestId := "req-2", profileId := "c", backupPath := "backup-2",
    createdAt := 0, expiresAt := 600000 }

/-- Manager fixture: persisted active is `b`, runtime active is `c` (via the
constructor override `--profile=c`), and a delete of `c` is pending. -/
def stC2 : ManagerState :=
  { disk := rawABC, rawConfig := rawABC, config := rawABC,
    activeProfileId := "c", profileOverride := some "c",
    pendingDeletes := [pendC] }

/-- C2 counterexample: deleting the runtime-active profile `c` makes the
runtime active id `b` (the recomputed persisted id), not `a`, the first
remaining profile — refuting "for every configuration in which the deleted
profile was the runtime-active one, the runtime active id afterwards is the
first remaining profile's id". -/
theorem confirmDelete_runtime_active_cex :
    ((stC2.config.profiles.filter (fun p => !(p.id == "c"))).head?.map
      Profile.id) = some "a" ∧
    stC2.activeProfileId = "c" ∧
    (confirmDeleteProfile keyOkAll stC2 "req-2" "c" "DELETE c" 0).isOk = true ∧
    (confirmDeleteProfile keyOkAll stC2 "req-2" "c" "DELETE c"
      0).state.activeProfileId = "b" := by
  decide

/-- The id of the first profile remaining after removing `id`
(the spec's "first remaining profile's id"). -/
def firstRemainingId (st : ManagerState) (id : String) : String :=
  (((st.config.profiles.filter (fun p => !(p.id == id))).head?.map
    Profile.id).getD "")

/-- C2 (amended): on success, the persisted active id is recomputed by
"keep current if it still names a remaining profile, else first remaining";
the runtime active id is kept when it is not the deleted profile and still
present, and otherwise falls back to the *recomputed persisted* id (not
necessarily the first remaining profile); in particular, when the deleted
profile was both persisted- and runtime-active, the runtime active id
becomes the first remaining profile's id. -/
theorem confirmDelete_active_recompute (keyOk : String → Bool)
    (st : ManagerState) (reqId id text : String) (now : Nat)
    (hinv : st.config = st.rawConfig) (r : DeleteResult) (st' : ManagerState)
    (h : confirmDeleteProfile keyOk st reqId id text now = OpOutcome.ok r st') :
    r.persistedActiveProfile =
      (if hasProfile (st.config.profiles.filter (fun p => !(p.id == id)))
          (readPersistedActiveProfileId st.rawConfig st.config.activeProfile) =
          true
       then readPersistedActiveProfileId st.rawConfig st.config.activeProfile
       else firstRemainingId st id) ∧
    st'.rawConfig.activeProfile = r.persistedActiveProfile ∧
    r.activeProfile =
      (if st.activeProfileId ≠ id ∧
          hasProfile (st.config.profiles.filter (fun p => !(p.id == id)))
            st.activeProfileId = true
       then st.activeProfileId else r.persistedActiveProfile) ∧
    st'.activeProfileId = r.activeProfile ∧
    ((readPersistedActiveProfileId st.rawConfig st.config.activeProfile = id ∧
      st.activeProfileId = id) → r.activeProfile = firstRemainingId st id) := by
  unfold confirmDeleteProfile at h
  split at h
  · exact OpOutcome.noConfusion h
  split at h
  · exact OpOutcome.noConfusion h
  split at h
  · exact OpOutcome.noConfusion h
  split at h
  · exact OpOutcome.noConfusion h
  dsimp only at h
  split at h
  · exact OpOutcome.noConfusion h
  split at h
  · exact OpOutcome.noConfusion h
  rename_i firstRemaining hhead
  split at h
  · exact OpOutcome.noConfusion h
  split at h
  · exact OpOutcome.noConfusion h
  rename_i u stP hpersist
  rw [OpOutcome.ok.injEq] at h
  obtain ⟨hr, hst'⟩ := h
  obtain ⟨hdisk, hraw, hcfg, hov, hpd, hpick, hval⟩ :=
    persistRawConfig_ok_inv keyOk st _ _ u stP hpersist
  have hprofeq : st.config.profiles = st.rawConfig.profiles := by rw [hinv]
  have hdel : hasProfile
      (st.config.profiles.filter (fun p => !(p.id == id))) id = false :=
    hasProfile_filter_self _ _
  have hfirstmem : hasProfile
      (st.config.profiles.filter (fun p => !(p.id == id)))
      firstRemaining.id = true :=
    hasProfile_of_head _ _ hhead
  have hfid : firstRemainingId st id = firstRemaining.id := by
    unfold firstRemainingId
    rw [hhead]
    rfl
  have hNPmem : hasProfile (st.config.profiles.filter (fun p => !(p.id == id)))
      (normalizedPersistedAfterDelete
        (readPersistedActiveProfileId st.rawConfig st.config.activeProfile) id
        (st.config.profiles.filter (fun p => !(p.id == id)))
        firstRemaining.id) = true :=
    normalizedPersisted_has _ _ _ _ hfirstmem
  have hNRmem : hasProfile (st.config.profiles.filter (fun p => !(p.id == id)))
      (normalizedRuntimeAfterDelete st.activeProfileId id
        (st.config.profiles.filter (fun p => !(p.id == id)))
        (normalizedPersistedAfterDelete
          (readPersistedActiveProfileId st.rawConfig st.config.activeProfile) id
          (st.config.profiles.filter (fun p => !(p.id == id)))
          firstRemaining.id)) = true :=
    normalizedRuntime_has _ _ _ _ hNPmem
  have hrawfilter : st.rawConfig.profiles.filter (fun p => !(p.id == id)) =
      st.config.profiles.filter (fun p => !(p.id == id)) := by
    rw [hprofeq]
  obtain ⟨hschema, _, _⟩ := validateRawConfig_ok_checks keyOk _ _ hval
  have hNRne : normalizedRuntimeAfterDelete st.activeProfileId id
      (st.config.profiles.filter (fun p => !(p.id == id)))
      (normalizedPersistedAfterDelete
        (readPersistedActiveProfileId st.rawConfig st.config.activeProfile) id
        (st.config.profiles.filter (fun p => !(p.id == id)))
        firstRemaining.id) ≠ "" := by
    refine hasProfile_id_ne_empty
      (st.config.profiles.filter (fun p => !(p.id == id))) _ ?_ hNRmem
    rw [← hrawfilter]
    exact hschema
  have hpick' := hpick
  rw [Option.getD_some] at hpick'
  dsimp only at hpick'
  rw [hrawfilter] at hpick'
  rw [pickActiveProfileId_first _ _ _ _ hNRne hNRmem,
    Except.ok.injEq] at hpick'
  have hsomeq := normalizedPersisted_eq_keepOrFirst
    (readPersistedActiveProfileId st.rawConfig st.config.activeProfile) id
    (st.config.profiles.filter (fun p => !(p.id == id)))
    firstRemaining.id hdel hfirstmem
  have hrteq := normalizedRuntime_eq st.activeProfileId id
    (st.config.profiles.filter (fun p => !(p.id == id)))
    (normalizedPersistedAfterDelete
      (readPersistedActiveProfileId st.rawConfig st.config.activeProfile) id
      (st.config.profiles.filter (fun p => !(p.id == id)))
      firstRemaining.id) hdel hNPmem
  refine ⟨?_, ?_, ?_, ?_, ?_⟩
  · rw [← hr]
    show normalizedPersistedAfterDelete _ id _ firstRemaining.id = _
    rw [hsomeq, hfid]
  · rw [← hst', ← hr]
    show stP.rawConfig.activeProfile = _
    rw [hraw]
  · rw [← hr]
    show normalizedRuntimeAfterDelete _ id _ _ = _
    rw [hrteq]
  · rw [← hst', ← hr]
    show stP.activeProfileId = normalizedRuntimeAfterDelete _ id _ _
    rw [← hpick']
  · intro ⟨hpid, hrid⟩
    rw [← hr]
    show normalizedRuntimeAfterDelete _ id _ _ = _
    rw [hrteq, if_neg (fun hc => hc.1 hrid), hsomeq, hpid, hdel,
      if_neg Bool.noConfusion, hfid]

/-- C2 fixture: expected delete result for the witness run. -/
def rW : DeleteResult :=
  { deletedProfileId := "g", activeProfile := "a",
    persistedActiveProfile := "a", backupPath := "backup-1" }

/-- C2 fixture: expected manager state after the witness run. -/
def stW : ManagerState :=
  { disk := { activeProfile := "a", profiles := [profA] },
    rawConfig := { activeProfile := "a", profiles := [profA] },
    config := { activeProfile := "a", profiles := [profA] },
    activeProfileId := "a", profileOverride := none, pendingDeletes := [] }

/-- Witness for C2's amended theorem on a concrete successful delete. -/
theorem confirmDelete_active_recompute_witness :
    stW.activeProfileId = rW.activeProfile :=
  (confirmDelete_active_recompute keyOkAll stC1 "req-1" "g" "DELETE g" 0
    rfl rW stW (by decide)).2.2.2.1

/-! ## C7 — `createProfile` failures leave the persisted file untouched -/

/-- A key-file oracle under which no key path exists. -/
def keyOkNone : String → Bool := fun _ => false

/-- C7: `createProfile` with a duplicate id rejects with the prior state
fully intact, and `createProfile` with key auth whose key file does not
exist rejects with the whole state (in particular the persisted file)
unchanged — validation always precedes the write. -/
theorem createProfile_no_write_on_failure (keyOk : String → Bool)
    (st : ManagerState) (input : ProfileCreateInput) :
    (hasProfile st.config.profiles input.id = true →
      createProfile keyOk st input =
        OpOutcome.err ("Profile \"" ++ input.id ++ "\" already exists") st) ∧
    (∀ kp, input.auth = ProfileAuth.key kp → keyOk kp = false →
      (createProfile keyOk st input).isOk = false ∧
      (createProfile keyOk st input).state = st) := by
  constructor
  · intro hdup
    unfold createProfile
    rw [if_pos hdup]
  · intro kp hauth hbad
    have hbadfield : authFieldOk keyOk (rawProfileOf input) = false := by
      have hauth' : (rawProfileOf input).auth = ProfileAuth.key kp := by
        unfold rawProfileOf builtProfile
        exact hauth
      unfold authFieldOk
      rw [hauth']
      dsimp only
      rw [hbad, Bool.and_false]
    unfold createProfile
    split
    · exact ⟨rfl, rfl⟩
    split
    · exact ⟨rfl, rfl⟩
    dsimp only
    cases hv : validateRawConfig keyOk
        { activeProfile := if input.activate.getD true = true then input.id
            else st.rawConfig.activeProfile,
          profiles := st.rawConfig.profiles ++ [rawProfileOf input] } with
    | ok c =>
      refine absurd hv (validateRawConfig_not_ok_of_authBad keyOk _
        (rawProfileOf input) ?_ hbadfield c)
      exact List.mem_append.mpr (Or.inr (List.mem_singleton.mpr rfl))
    | error e =>
      rw [persistRawConfig_of_validate_err keyOk st _ _ e hv]
      exact ⟨rfl, rfl⟩

/-- Duplicate-id fixture input. -/
def inputDup : ProfileCreateInput :=
  { id := "a", name := "Alpha copy", host := "h", user := "u",
    auth := ProfileAuth.password "p" }

/-- Key-auth fixture input whose key file is missing. -/
def inputKey : ProfileCreateInput :=
  { id := "k1", name := "Broken Key", host := "broken.example.com",
    user := "root", auth := ProfileAuth.key "./keys/not-exists" }

/-- Witness for C7 on concrete duplicate-id and missing-key-file runs. -/
theorem createProfile_no_write_on_failure_witness :
    createProfile keyOkAll stC1 inputDup =
      OpOutcome.err ("Profile \"" ++ inputDup.id ++ "\" already exists") stC1 ∧
    (createProfile keyOkNone stC1 inputKey).isOk = false ∧
    (createProfile keyOkNone stC1 inputKey).state = stC1 :=
  ⟨(createProfile_no_write_on_failure keyOkAll stC1 inputDup).1 (by decide),
   (createProfile_no_write_on_failure keyOkNone stC1 inputKey).2
     "./keys/not-exists" rfl rfl⟩

/-! ## C9 — lifecycle of a pending delete request -/

/-- C9: a failed `confirmDeleteProfile` with a mismatched profile id or a
wrong confirmation text returns the state unchanged — in particular the
request survives and a later call behaves as if the failed call never
happened; a request is consumed exactly on success, and a failing call
either leaves the pending store intact or (only when the request was
observed expired) evicts it. -/
theorem pendingDelete_removal_policy (keyOk : String → Bool)
    (st : ManagerState) (reqId id text : String) (now : Nat) :
    (∀ p, lookupPending st.pendingDeletes reqId = some p →
      ¬ p.expiresAt < now → p.profileId ≠ id →
      confirmDeleteProfile keyOk st reqId id text now =
        OpOutcome.err "Delete request profile mismatch" st) ∧
    (∀ p, lookupPending st.pendingDeletes reqId = some p →
      ¬ p.expiresAt < now → p.profileId = id →
      trimStr text ≠ "DELETE " ++ id →
      confirmDeleteProfile keyOk st reqId id text now =
        OpOutcome.err
          ("Invalid confirmationText. Expected exactly: \"DELETE " ++ id ++ "\"")
          st) ∧
    (∀ r st', confirmDeleteProfile keyOk st reqId id text now =
        OpOutcome.ok r st' →
      st'.pendingDeletes = removePending st.pendingDeletes reqId) ∧
    ((confirmDeleteProfile keyOk st reqId id text now).isOk = false →
      (confirmDeleteProfile keyOk st reqId id text now).state.pendingDeletes =
        st.pendingDeletes ∨
      (∃ p, lookupPending st.pendingDeletes reqId = some p ∧
        p.expiresAt < now ∧
        (confirmDeleteProfile keyOk st reqId id text now).state.pendingDeletes =
          removePending st.pendingDeletes reqId)) := by
  refine ⟨?_, ?_, ?_, ?_⟩
  · intro p hl hexp hmm
    unfold confirmDeleteProfile
    rw [hl]
    dsimp only
    rw [if_neg hexp, if_pos hmm]
  · intro p hl hexp hpid htext
    unfold confirmDeleteProfile
    rw [hl]
    dsimp only
    rw [if_neg hexp, if_neg (not_not_intro hpid), if_pos htext]
  · intro r st' h
    unfold confirmDeleteProfile at h
    split at h
    · exact OpOutcome.noConfusion h
    split at h
    · exact OpOutcome.noConfusion h
    split at h
    · exact OpOutcome.noConfusion h
    split at h
    · exact OpOutcome.noConfusion h
    dsimp only at h
    split at h
    · exact OpOutcome.noConfusion h
    split at h
    · exact OpOutcome.noConfusion h
    split at h
    · exact OpOutcome.noConfusion h
    split at h
    · exact OpOutcome.noConfusion h
    rename_i u stP hpersist
    rw [OpOutcome.ok.injEq] at h
    obtain ⟨_, _, _, _, hpd, _, _⟩ :=
      persistRawConfig_ok_inv keyOk st _ _ u stP hpersist
    rw [← h.2]
    show removePending stP.pendingDeletes reqId = _
    rw [hpd]
  · unfold confirmDeleteProfile
    split
    · intro _
      exact Or.inl rfl
    · rename_i p hl
      split
      · rename_i hexp
        intro _
        exact Or.inr ⟨p, hl, hexp, rfl⟩
      split
      · intro _
        exact Or.inl rfl
      split
      · intro _
        exact Or.inl rfl
      dsimp only
      split
      · intro _
        exact Or.inl rfl
      split
      · intro _
        exact Or.inl rfl
      split
      · intro _
        exact Or.inl rfl
      split
      · rename_i e stE hpersist
        intro _
        exact Or.inl (persistRawConfig_err_inv keyOk st _ _ e stE hpersist).1
      · intro habs
        exact Bool.noConfusion habs

/-- Witness for C9: a mismatched-id confirm fails leaving the state (and the
pending request) exactly as before, and the same request id is then
confirmed successfully by a later call within the expiry window. -/
theorem pendingDelete_removal_policy_witness :
    confirmDeleteProfile keyOkAll stC1 "req-1" "a" "DELETE a" 0 =
      OpOutcome.err "Delete request profile mismatch" stC1 ∧
    (confirmDeleteProfile keyOkAll
      (confirmDeleteProfile keyOkAll stC1 "req-1" "a" "DELETE a" 0).state
      "req-1" "g" "DELETE g" 599999).isOk = true :=
  ⟨(pendingDelete_removal_policy keyOkAll stC1 "req-1" "a" "DELETE a" 0).1
     pendG (by decide) (by decide) (by decide),
   by decide⟩

end SshMcp
